import Mathlib

/-!
Shallow embedding of the vidl-rs channel-synchronization and job-scheduling
engine, with theorems settling the frozen claims about it.

Conventions of the embedding:
* machine integers and SQL integers are `Int`, timestamps are integer seconds;
* fallible Rust code (`Result`) becomes `Except String`;
* the SQLite store becomes an explicit `Database` value threaded through the
  operations; SQL statements are translated to list operations on the rows;
* external collaborators (the HTTP fetches of channel metadata and video
  pages, the download executable) are injected as values or functions, so a
  theorem quantifies over every possible collaborator behaviour.
-/

/-- Video lifecycle status, from `VideoStatus` in src/common.rs. -/
inductive VideoStatus where
  | New
  | Queued
  | Downloading
  | Grabbed
  | GrabError
  | Ignore
deriving DecidableEq, Repr

/-- Video info as fetched from a source, from `VideoInfo` in src/source/base.rs
plus the optional alternate title that src/db.rs reads and writes. -/
structure VideoInfo where
  id : String
  url : String
  title : String
  title_alt : Option String
  description : String
  thumbnail_url : String
  published_at : Int
  duration : Int
deriving DecidableEq, Repr

/-- Channel metadata, from `ChannelMetadata` in src/source/base.rs. -/
structure ChannelMetadata where
  title : String
  thumbnail : String
  description : String
deriving DecidableEq, Repr

/-- In-memory channel handle, from `Channel` in src/db.rs (the `service` tag
is not modelled: the claims cover the Youtube code path, and the embedding
injects the collaborator results instead of dispatching on the service). -/
structure Channel where
  id : Int
  chanid : String
  title : String
  thumbnail : String
deriving DecidableEq, Repr

/-- One row of the `video` table (schema in src/db_migration.rs: `CreateBase`
plus the duration, date_added and title_alt migrations). -/
structure VideoRow where
  id : Int
  channel : Int
  video_id : String
  status : VideoStatus
  url : String
  title : String
  title_alt : Option String
  description : String
  thumbnail : String
  published_at : Int
  duration : Int
  date_added : Int
deriving DecidableEq, Repr

/-- One row of the `channel` table (schema in src/db_migration.rs). -/
structure ChannelRow where
  id : Int
  chanid : String
  title : String
  thumbnail : String
  last_update : Option Int
deriving DecidableEq, Repr

/-- The SQLite database: both tables plus the AUTOINCREMENT cursor that
`last_insert_rowid` reports. -/
structure Database where
  channels : List ChannelRow
  videos : List VideoRow
  next_rowid : Int
deriving DecidableEq, Repr

/-- Duration of `m` minutes in seconds, modelling `chrono::Duration::minutes`. -/
def chrono_minutes (m : Int) : Int := m * 60

/-- Reads the `last_update` column, from `Channel::last_update` in src/db.rs
(the query errors when the channel row is missing). -/
def Channel.last_update (chan : Channel) (db : Database) : Except String (Option Int) :=
  match db.channels.find? (fun r => r.id == chan.id) with
  | some r => Except.ok r.last_update
  | none => Except.error "Failed to find channel"

/-- The intermediate branch inside `Channel::update_required` (src/db.rs): the
reference recomputes a boolean that is true exactly when the interval has
elapsed. -/
def shedule_due (due_for_update : Bool) : Bool :=
  if due_for_update then true else false

/-- Staleness check, from `Channel::update_required` in src/db.rs: an update is
due when there is no recorded `last_update`, or when more than 60 minutes have
passed since it. -/
def Channel.update_required (chan : Channel) (db : Database) (now : Int) :
    Except String Bool :=
  match chan.last_update db with
  | Except.error e => Except.error e
  | Except.ok last_update =>
    Except.ok (match last_update with
      | some last_update =>
        let delta := now - last_update
        let due_for_update := decide (delta > chrono_minutes 60)
        shedule_due due_for_update
      | none => true)

/-- The `time_to_update` computation of `worker_update_check` in src/worker.rs,
over the value read from the `last_update` column. -/
def worker_time_to_update (last_update : Option Int) (now : Int) : Bool :=
  match last_update with
  | some last_update => decide (now - last_update > chrono_minutes 60)
  | none => true

/-- Bounded retry loop of `request_data` in src/source/invidious.rs. The
collaborator `att` gives the outcome of each successive HTTP attempt; the
result is paired with the number of attempts made. The loop keeps the shape of
the source: try, return on success, stop returning the last error once
`tries > 3`, else increment `tries` and retry. -/
def request_data_loop {T : Type} (att : Nat → Except String T) (tries idx : Nat) :
    Except String T × Nat :=
  match att idx with
  | Except.ok d => (Except.ok d, idx + 1)
  | Except.error e =>
    if h : tries > 3 then (Except.error e, idx + 1)
    else request_data_loop att (tries + 1) (idx + 1)
termination_by 4 - tries
decreasing_by omega

/-- Entry point of the retry loop: `request_data` starts with `tries = 0` and
no attempts made. -/
def request_data {T : Type} (att : Nat → Except String T) : Except String T × Nat :=
  request_data_loop att 0 0

/-- Attempt outcomes on which the request loop makes five attempts: the first
four fail transiently and the fifth succeeds. -/
def c5_att : Nat → Except String Nat :=
  fun i => if i < 4 then Except.error "transient failure" else Except.ok 42

/-- Video info joined with the database-known fields, from `DBVideoInfo` in
src/db.rs. -/
structure DBVideoInfo where
  id : Int
  info : VideoInfo
  status : VideoStatus
  chanid : Int
  date_added : Int
deriving DecidableEq, Repr

/-- Row lookup and mapper of `DBVideoInfo::get_by_sqlid` in src/db.rs. The
source fills the `published_at` field of the returned `VideoInfo` from the
`date_added` column, and the translation keeps that column choice. -/
def DBVideoInfo.get_by_sqlid (db : Database) (id : Int) : Except String DBVideoInfo :=
  match db.videos.find? (fun r => r.id == id) with
  | none => Except.error "Failed to find channel"
  | some row => Except.ok
      { id := row.id
        status := row.status
        date_added := row.date_added
        info :=
          { id := row.video_id
            url := row.url
            title := row.title
            title_alt := row.title_alt
            description := row.description
            thumbnail_url := row.thumbnail
            published_at := row.date_added
            duration := row.duration }
        chanid := row.channel }

/-- Status column UPDATE, from `DBVideoInfo::set_status` in src/db.rs. -/
def DBVideoInfo.set_status (val : DBVideoInfo) (db : Database) (status : VideoStatus) :
    Database :=
  { db with videos := db.videos.map fun r => if r.id == val.id then { r with status := status } else r }

/-- Status column of the video row with the given id, for stating what a
download run changes and what it leaves alone. -/
def video_status (db : Database) (id : Int) : Option VideoStatus :=
  (db.videos.find? (fun r => r.id == id)).map (fun r => r.status)

/-- Timestamp UPDATE, from `Channel::set_last_update` in src/db.rs. -/
def Channel.set_last_update (chan : Channel) (db : Database) (now : Int) : Database :=
  { db with channels := db.channels.map fun r => if r.id == chan.id then { r with last_update := some now } else r }

/-- Metadata UPDATE, from `Channel::update_metadata` in src/db.rs. -/
def Channel.update_metadata (chan : Channel) (db : Database) (meta : ChannelMetadata) :
    Database :=
  { db with channels := db.channels.map fun r => if r.id == chan.id then { r with title := meta.title, thumbnail := meta.thumbnail } else r }

/-- Stable insertion into a list ordered by descending published_at. -/
def insert_desc (r : VideoRow) : List VideoRow → List VideoRow
  | [] => [r]
  | x :: xs => if x.published_at < r.published_at then r :: x :: xs else x :: insert_desc r xs

/-- ORDER BY published_at DESC, as a stable insertion sort. -/
def order_by_published_desc : List VideoRow → List VideoRow
  | [] => []
  | x :: xs => insert_desc x (order_by_published_desc xs)

/-- Dedup window query, from `Channel::last_n_video_urls` in src/db.rs: URLs
of the rows of this channel, most recently published first, LIMIT num. The
source collects them into a HashSet; here a list used by membership only. -/
def Channel.last_n_video_urls (chan : Channel) (db : Database) (num : Nat) : List String :=
  ((order_by_published_desc (db.videos.filter (fun r => r.channel == chan.id))).take
      num).map (fun r => r.url)

/-- The row the INSERT of `Channel::add_video` (src/db.rs) creates: status
defaults to New, date_added is the insertion time, title_alt is not written. -/
def video_row_of (chan : Channel) (now rowid : Int) (video : VideoInfo) : VideoRow :=
  { id := rowid
    channel := chan.id
    video_id := video.id
    status := VideoStatus.New
    url := video.url
    title := video.title
    title_alt := none
    description := video.description
    thumbnail := video.thumbnail_url
    published_at := video.published_at
    duration := video.duration
    date_added := now }

/-- INSERT plus read-back, from `Channel::add_video` in src/db.rs. The UNIQUE
constraint on video.url (src/db_migration.rs, `CreateBase`) rejects an INSERT
whose URL is already present; on success the new row is read back through
`get_by_sqlid` at `last_insert_rowid`. The updated database is returned in
either case, since a failing read-back would not undo the INSERT. -/
def Channel.add_video (chan : Channel) (db : Database) (now : Int) (video : VideoInfo) :
    Database × Except String DBVideoInfo :=
  if db.videos.any (fun r => r.url == video.url) then
    (db, Except.error "UNIQUE constraint failed: video.url")
  else
    let db2 : Database :=
      { db with
        videos := db.videos ++ [video_row_of chan now db.next_rowid video]
        next_rowid := db.next_rowid + 1 }
    (db2, DBVideoInfo.get_by_sqlid db2 db.next_rowid)

/-- The walk of `Channel::update` (src/db.rs) over the lazy video source: an
error item aborts the whole sync; an already-seen URL ends the walk unless
full_update is set; every other item is collected for insertion. -/
def collect_new (seen : List String) (full_update : Bool) :
    List (Except String VideoInfo) → Except String (List VideoInfo)
  | [] => Except.ok []
  | item :: rest =>
    match item with
    | Except.error e => Except.error e
    | Except.ok v =>
      if seen.contains v.url && !full_update then Except.ok []
      else (collect_new seen full_update rest).map (fun vs => v :: vs)

/-- How many items of the source the walk of `Channel::update` consumes
before returning or breaking. -/
def consumed_count (seen : List String) (full_update : Bool) :
    List (Except String VideoInfo) → Nat
  | [] => 0
  | item :: rest =>
    match item with
    | Except.error _ => 1
    | Except.ok v =>
      if seen.contains v.url && !full_update then 1
      else 1 + consumed_count seen full_update rest

/-- The insertion loop of `Channel::update` (src/db.rs): each collected video
is inserted; an insertion error is logged and the loop continues. -/
def insert_all (chan : Channel) (now : Int) (db : Database) : List VideoInfo → Database
  | [] => db
  | v :: rest => insert_all chan now (chan.add_video db now v).1 rest

/-- The rows `insert_all` appends when every insertion succeeds, with the
row ids the AUTOINCREMENT column assigns. -/
def mk_rows (chan : Channel) (now : Int) : Int → List VideoInfo → List VideoRow
  | _, [] => []
  | rowid, v :: vs => video_row_of chan now rowid v :: mk_rows chan now (rowid + 1) vs

/-- Channel synchronization, from `Channel::update` in src/db.rs. The
collaborator outcomes are injected: `meta` is what `api.get_metadata()`
returns and `source` the item sequence `api.videos()` yields. The Youtube
channel-id workaround and the Vimeo stub, network lookups that precede the
fetch, are outside the sync algorithm and not modelled. -/
def Channel.update (chan : Channel) (db : Database) (now : Int)
    (meta : Except String ChannelMetadata)
    (source : List (Except String VideoInfo))
    (full_update : Bool) : Database × Except String Unit :=
  let db := chan.set_last_update db now
  match meta with
  | Except.error _ => (db, Except.ok ())
  | Except.ok m =>
    let db := chan.update_metadata db m
    let seen_videos := chan.last_n_video_urls db 200
    match collect_new seen_videos full_update source with
    | Except.error e => (db, Except.error e)
    | Except.ok new_videos => (insert_all chan now db new_videos, Except.ok ())

/-- Download work item execution, from `worker_download` in src/worker.rs: the
video is re-read from the database; a video no longer Queued is skipped;
otherwise it is marked Downloading, the download collaborator runs, and the
status becomes Grabbed on success and GrabError on failure. -/
def worker_download (db : Database) (val0 : DBVideoInfo)
    (download : VideoInfo → Except String Unit) : Database × Except String Unit :=
  match DBVideoInfo.get_by_sqlid db val0.id with
  | Except.error e => (db, Except.error e)
  | Except.ok val =>
    if val.status ≠ VideoStatus.Queued then (db, Except.ok ())
    else
      let db := val.set_status db VideoStatus.Downloading
      match download val.info with
      | Except.ok _ => (val.set_status db VideoStatus.Grabbed, Except.ok ())
      | Except.error _ => (val.set_status db VideoStatus.GrabError, Except.ok ())

/-- State of the lazy iterator of `YoutubeQuery::videos`
(src/source/invidious.rs): the captured continuation token, completed flag
and buffered items, plus the successive responses of the modelled remote
source (each `get_page` call consumes one: the page items and the optional
continuation of the response, or a fetch/parse error). -/
structure VideosState where
  cont_token : Option String
  completed : Bool
  current_items : List VideoInfo
  pages : List (Except String (List VideoInfo × Option String))
deriving Repr

/-- One call of the `from_fn` closure in `YoutubeQuery::videos`: the yielded
item (none ends the iteration) and the successor state. As in the source, the
completed flag is checked before the buffered items are drained. -/
def videos_next (s : VideosState) : Option (Except String VideoInfo) × VideosState :=
  if s.completed then (none, s)
  else
    match s.current_items with
    | cur :: rest => (some (Except.ok cur), { s with current_items := rest })
    | [] =>
      match s.pages with
      | [] => (none, s)
      | page :: prest =>
        match page with
        | Except.error e =>
          (some (Except.error e), { s with completed := true, pages := prest })
        | Except.ok (new_items, ct) =>
          let s1 : VideosState :=
            { s with
              pages := prest
              completed := ct.isNone
              cont_token := match ct with | some c => some c | none => s.cont_token }
          match new_items with
          | [] => (none, s1)
          | v :: vs => (some (Except.ok v), { s1 with current_items := vs })

/-- Runs the iterator, collecting the yielded items until the first none,
which is what a caller of the lazy sequence observes; the fuel bounds the
number of calls. -/
def videos_drive : Nat → VideosState → List (Except String VideoInfo)
  | 0, _ => []
  | fuel + 1, s =>
    match videos_next s with
    | (none, _) => []
    | (some x, s2) => x :: videos_drive fuel s2

/-- Initial iterator state, from the closure captures in `videos`. -/
def videos_init (pages : List (Except String (List VideoInfo × Option String))) :
    VideosState :=
  { cont_token := none, completed := false, current_items := [], pages := pages }

/-- Work items of the pool, from `WorkItem` in src/worker.rs. -/
inductive WorkItem where
  | Download (val : DBVideoInfo)
  | Shutdown
  | UpdateCheck (chan : Channel)
  | ThumbnailCache (url : String)
deriving DecidableEq, Repr

/-- Whether a work item is the shutdown sentinel. -/
def WorkItem.isShutdown : WorkItem → Bool
  | WorkItem.Shutdown => true
  | _ => false

/-- Shared state of the worker pool: the mpsc queue, which workers have
received Shutdown and returned, and the items executed so far in dequeue
order, each tagged with the worker that ran it. -/
structure PoolState (n : Nat) where
  queue : List WorkItem
  exited : Fin n → Bool
  executed : List (WorkItem × Fin n)

/-- Interleaving semantics of `Worker::run` (src/worker.rs): a step is one
worker taking the channel lock, receiving the head item, and either running
it to completion before its next receive, or exiting on Shutdown. -/
inductive PoolStep (n : Nat) : PoolState n → PoolState n → Prop
  | run_item (s : PoolState n) (w : Fin n) (item : WorkItem) (q : List WorkItem)
      (hw : s.exited w = false) (hq : s.queue = item :: q)
      (hitem : item.isShutdown = false) :
      PoolStep n s
        { queue := q, exited := s.exited, executed := s.executed ++ [(item, w)] }
  | run_shutdown (s : PoolState n) (w : Fin n) (q : List WorkItem)
      (hw : s.exited w = false) (hq : s.queue = WorkItem.Shutdown :: q) :
      PoolStep n s
        { queue := q, exited := Function.update s.exited w true, executed := s.executed }

/-- Pool state once k items are enqueued and `stop()` (Drop for WorkerPool in
src/worker.rs) has pushed exactly one Shutdown sentinel per worker: the FIFO
queue holds the items followed by n sentinels, no worker has exited, nothing
has run yet. `stop()` returns only after `pool.join()`, i.e. in a state where
every worker has exited. -/
def PoolState.init (n : Nat) (items : List WorkItem) : PoolState n :=
  { queue := items ++ List.replicate n WorkItem.Shutdown
    exited := fun _ => false
    executed := [] }

/-- Invariant of the drain argument: the queue is a suffix of the initial
queue (receives pop the head only); executed items followed by the pending
non-sentinel items are exactly the enqueued items; sentinels still queued and
workers already exited add up to n. -/
def PoolInv (n : Nat) (items : List WorkItem) (s : PoolState n) : Prop :=
  (∃ c, items ++ List.replicate n WorkItem.Shutdown = c ++ s.queue)
  ∧ s.executed.map Prod.fst ++ s.queue.filter (fun i => !i.isShutdown) = items
  ∧ s.queue.countP (fun i => i.isShutdown) +
      (Finset.univ.filter (fun w => s.exited w = true)).card = n

/-- Channel of the concrete sync scenarios. -/
def cex_chan : Channel := ⟨1, "UC1", "chan", "http://thumb"⟩

/-- Already-persisted video u of the C1 scenario. -/
def c1_vu : VideoInfo := ⟨"u", "http://u", "video u", none, "du", "thu", 100, 10⟩

/-- Already-persisted video w of the C1 scenario. -/
def c1_vw : VideoInfo := ⟨"w", "http://w", "video w", none, "dw", "thw", 90, 11⟩

/-- Database of the C1 scenario: both u and w are persisted, so the dedup
window is the URL set of u and w. -/
def c1_db : Database :=
  ⟨[⟨1, "UC1", "chan", "http://thumb", some 0⟩],
   [video_row_of cex_chan 50 1 c1_vu, video_row_of cex_chan 50 2 c1_vw], 3⟩

/-- Newest-first source of the C1 scenario: first the known w, then the known
u, so the first item with URL u sits at position k = 2. -/
def c1_source : List (Except String VideoInfo) :=
  [Except.ok c1_vw, Except.ok c1_vu]

/-- Database of the C1 witness scenario: only u is persisted, so the dedup
window is exactly the URL of u. -/
def c1w_db : Database :=
  ⟨[⟨1, "UC1", "chan", "http://thumb", some 0⟩], [video_row_of cex_chan 50 1 c1_vu], 2⟩

/-- Database of the C6 witness scenario, identical to the C1 witness one. -/
def c6w_db : Database := c1w_db

/-- First video of the final page in the C2 scenario. -/
def c2_v1 : VideoInfo := ⟨"id1", "http://youtube.com/watch?v=id1", "t1", none, "d1", "th1", 100, 60⟩

/-- Second video of the final page in the C2 scenario. -/
def c2_v2 : VideoInfo := ⟨"id2", "http://youtube.com/watch?v=id2", "t2", none, "d2", "th2", 90, 61⟩

/-- Queued video row of the C4 witness scenario. -/
def c4w_row : VideoRow :=
  { id := 1, channel := 1, video_id := "v", status := VideoStatus.Queued,
    url := "http://v", title := "t", title_alt := none, description := "d",
    thumbnail := "h", published_at := 100, duration := 10, date_added := 150 }

/-- Database of the C4 witness scenario: one queued video. -/
def c4w_db : Database := ⟨[⟨1, "UC1", "chan", "http://thumb", some 0⟩], [c4w_row], 2⟩

/-- The enqueued snapshot of the queued video in the C4 witness scenario (as
`get_by_sqlid` returns it: published_at mirrors date_added). -/
def c4w_val : DBVideoInfo :=
  ⟨1, ⟨"v", "http://v", "t", none, "d", "h", 150, 10⟩, VideoStatus.Queued, 1, 150⟩

/-- Fresh video of the C8 scenario, published at time 100. -/
def c8_video : VideoInfo := ⟨"vid1", "http://youtube.com/watch?v=vid1", "title1", none, "desc", "tmb", 100, 60⟩

/-- Database of the C8 scenario: the channel exists and holds no videos. -/
def c8_db : Database := ⟨[⟨1, "UC1", "chan", "http://thumb", none⟩], [], 1⟩

/-- C5: the claim says at most 3 retries, hence at most 4 total attempts. The
code retries while `tries > 3` is false after the check, which allows a fifth
attempt: on a source failing four times, the fifth attempt is still made and
its success is returned, so more than 4 attempts are made. -/
theorem C5_counterexample :
    (request_data c5_att).2 = 5 ∧ ¬ (request_data c5_att).2 ≤ 4 ∧
      (request_data c5_att).1 = Except.ok 42 := by
  refine ⟨?_, ?_, ?_⟩ <;>
    simp [request_data, request_data_loop, c5_att]

theorem request_data_loop_spec {T : Type} (att : Nat → Except String T) :
    ∀ k tries idx, 4 - tries ≤ k →
      (request_data_loop att tries idx).2 ≤ idx + (4 - tries) + 1
      ∧ (request_data_loop att tries idx).2 ≥ idx + 1
      ∧ (request_data_loop att tries idx).1 = att ((request_data_loop att tries idx).2 - 1)
      ∧ (∀ i, idx ≤ i → i < (request_data_loop att tries idx).2 - 1 →
          ∃ e, att i = Except.error e)
      ∧ ((request_data_loop att tries idx).2 < idx + (4 - tries) + 1 →
          ∃ d, (request_data_loop att tries idx).1 = Except.ok d) := by
  intro k
  induction k with
  | zero =>
    intro tries idx hk
    have htries : tries > 3 := by omega
    rw [request_data_loop]
    cases hatt : att idx with
    | ok d =>
      dsimp only
      refine ⟨by omega, by omega, by simpa using hatt.symm, ?_, fun _ => ⟨d, rfl⟩⟩
      intro i hi1 hi2
      omega
    | error e =>
      dsimp only
      rw [dif_pos htries]
      refine ⟨by omega, by omega, by simpa using hatt.symm, ?_, ?_⟩
      · intro i hi1 hi2; omega
      · intro hlt; omega
  | succ k ih =>
    intro tries idx hk
    rw [request_data_loop]
    cases hatt : att idx with
    | ok d =>
      dsimp only
      refine ⟨by omega, by omega, by simpa using hatt.symm, ?_, fun _ => ⟨d, rfl⟩⟩
      intro i hi1 hi2
      omega
    | error e =>
      by_cases htries : tries > 3
      · dsimp only
        rw [dif_pos htries]
        refine ⟨by omega, by omega, by simpa using hatt.symm, ?_, ?_⟩
        · intro i hi1 hi2; omega
        · intro hlt; omega
      · dsimp only
        rw [dif_neg htries]
        obtain ⟨h1, h2, h3, h4, h5⟩ := ih (tries + 1) (idx + 1) (by omega)
        refine ⟨by omega, by omega, h3, ?_, ?_⟩
        · intro i hi1 hi2
          rcases Nat.eq_or_lt_of_le hi1 with heq | hlt
          · exact ⟨e, heq ▸ hatt⟩
          · exact h4 i hlt hi2
        · intro hlt
          exact h5 (by omega)

/-- C5 (amended): every request makes at most 5 total attempts (up to 4
retries); the surfaced result is the outcome of the last attempt made, every
earlier attempt failed, and the loop stops before the fifth attempt only on a
success. -/
theorem C5_retry_bound {T : Type} (att : Nat → Except String T) :
    (request_data att).2 ≤ 5
    ∧ 1 ≤ (request_data att).2
    ∧ (request_data att).1 = att ((request_data att).2 - 1)
    ∧ (∀ i, i < (request_data att).2 - 1 → ∃ e, att i = Except.error e)
    ∧ ((request_data att).2 < 5 → ∃ d, (request_data att).1 = Except.ok d) := by
  have h := request_data_loop_spec att 4 0 0 (by omega)
  obtain ⟨h1, h2, h3, h4, h5⟩ := h
  exact ⟨by simpa [request_data] using h1, by simpa [request_data] using h2,
    h3, fun i hi => h4 i (Nat.zero_le i) hi, fun hlt => h5 (by simpa using hlt)⟩

/-- C9: the staleness check returns true exactly when the channel has no
recorded `last_update` or more than 60 minutes have elapsed; the intermediate
`shedule_due` branch is the identity on its boolean, so the implemented check
equals the plain elapsed-time predicate that `worker_update_check` computes. -/
theorem C9_staleness (chan : Channel) (db : Database) (now : Int) (lu : Option Int)
    (hlu : chan.last_update db = Except.ok lu) :
    (Channel.update_required chan db now = Except.ok true ↔
      lu = none ∨ ∃ t, lu = some t ∧ now - t > chrono_minutes 60)
    ∧ (∀ due_for_update, shedule_due due_for_update = due_for_update)
    ∧ Channel.update_required chan db now = Except.ok (worker_time_to_update lu now) := by
  have hid : ∀ b, shedule_due b = b := by
    intro b; cases b <;> rfl
  refine ⟨?_, hid, ?_⟩
  · rw [Channel.update_required, hlu]
    cases lu with
    | none => simp
    | some t =>
      simp only [hid, worker_time_to_update, Except.ok.injEq, decide_eq_true_eq]
      constructor
      · intro h; exact Or.inr ⟨t, rfl, h⟩
      · rintro (h | ⟨t2, ht2, h⟩)
        · exact absurd h (by simp)
        · cases ht2; exact h
  · rw [Channel.update_required, hlu]
    cases lu with
    | none => rfl
    | some t => simp [hid, worker_time_to_update]

/-- Witness for C9 at a concrete channel and database: one channel row whose
`last_update` is 100 seconds, checked 2 hours later. -/
theorem C9_staleness_witness :
    (Channel.update_required ⟨1, "UC1", "t", "th"⟩
        ⟨[⟨1, "UC1", "t", "th", some 100⟩], [], 1⟩ 7300 = Except.ok true ↔
      (some 100 : Option Int) = none ∨
        ∃ t, (some 100 : Option Int) = some t ∧ 7300 - t > chrono_minutes 60) ∧
    (∀ due_for_update, shedule_due due_for_update = due_for_update) ∧
    Channel.update_required ⟨1, "UC1", "t", "th"⟩
        ⟨[⟨1, "UC1", "t", "th", some 100⟩], [], 1⟩ 7300 =
      Except.ok (worker_time_to_update (some 100) 7300) :=
  C9_staleness ⟨1, "UC1", "t", "th"⟩ ⟨[⟨1, "UC1", "t", "th", some 100⟩], [], 1⟩
    7300 (some 100) (by rfl)

/-- C2: with a single (hence final) page holding two items and no
continuation, the lazy sequence yields only the first item and then ends: the
completed flag set by the End continuation is checked before the buffer is
drained, so the remaining items of the final page are dropped, against the
claim that the concatenation of all page items is yielded. -/
theorem C2_last_page_dropped :
    videos_drive 10 (videos_init [Except.ok ([c2_v1, c2_v2], none)]) = [Except.ok c2_v1]
    ∧ ([Except.ok c2_v1] : List (Except String VideoInfo))
        ≠ [Except.ok c2_v1, Except.ok c2_v2] := by
  refine ⟨rfl, ?_⟩
  intro h
  exact absurd (congrArg List.length h) (by simp)

/-- C8: adding a video published at time 100 to an empty channel at time 200
and reading it back (as `add_video` itself does) yields status New, the fresh
date_added 200, and every field of the record unchanged except published_at,
which comes back as 200, the insertion time, instead of the original 100:
`get_by_sqlid` fills published_at from the date_added column. -/
theorem C8_published_at_bug :
    cex_chan.add_video c8_db 200 c8_video
      = ({ c8_db with videos := [video_row_of cex_chan 200 1 c8_video], next_rowid := 2 },
         Except.ok ⟨1, { c8_video with published_at := 200 }, VideoStatus.New, 1, 200⟩)
    ∧ c8_video.published_at = 100
    ∧ ({ c8_video with published_at := 200 } : VideoInfo).published_at ≠ c8_video.published_at := by
  refine ⟨rfl, rfl, by decide⟩

/-- C1, counterexample: the dedup window holds both URL u and URL w; the
newest-first source is the w item then the u item, so its 2nd item is the
first item with URL u (k = 2). The claim predicts the first k-1 = 1 items
inserted and two items consumed; the sync instead stops at the w item, whose
URL is already in the window: it consumes one item and inserts nothing. -/
theorem C1_counterexample :
    cex_chan.last_n_video_urls c1_db 200 = ["http://u", "http://w"]
    ∧ c1_source.get? 0 = some (Except.ok c1_vw)
    ∧ c1_source.get? 1 = some (Except.ok c1_vu)
    ∧ c1_vu.url = "http://u"
    ∧ c1_vw.url ≠ "http://u"
    ∧ consumed_count (cex_chan.last_n_video_urls c1_db 200) false c1_source = 1
    ∧ collect_new (cex_chan.last_n_video_urls c1_db 200) false c1_source = Except.ok []
    ∧ (Channel.update cex_chan c1_db 500 (Except.ok ⟨"chan", "http://thumb", ""⟩)
        c1_source false).1.videos = c1_db.videos
    ∧ (Channel.update cex_chan c1_db 500 (Except.ok ⟨"chan", "http://thumb", ""⟩)
        c1_source false).1.videos
        ≠ c1_db.videos ++ [video_row_of cex_chan 500 3 c1_vw] := by
  refine ⟨rfl, rfl, rfl, rfl, by decide, rfl, rfl, rfl, by decide⟩

theorem collect_new_error (seen : List String) (full_update : Bool) (e : String)
    (rest : List (Except String VideoInfo)) :
    ∀ pre : List VideoInfo,
      (∀ v ∈ pre, seen.contains v.url = false ∨ full_update = true) →
      collect_new seen full_update (pre.map Except.ok ++ Except.error e :: rest)
        = Except.error e := by
  intro pre
  induction pre with
  | nil => intro _; rfl
  | cons v vs ih =>
    intro h
    have hrest := ih (fun x hx => h x (List.mem_cons_of_mem _ hx))
    have hcond : (seen.contains v.url && !full_update) = false := by
      cases hc : seen.contains v.url with
      | false => rfl
      | true =>
        rcases h v (List.mem_cons_self v vs) with h1 | h1
        · rw [hc] at h1; exact absurd h1 (by decide)
        · rw [h1]; rfl
    calc collect_new seen full_update (List.map Except.ok (v :: vs) ++ Except.error e :: rest)
        = (collect_new seen full_update
            (List.map Except.ok vs ++ Except.error e :: rest)).map (fun vs => v :: vs) := by
          rw [List.map_cons, List.cons_append]
          show (if seen.contains v.url && !full_update then Except.ok []
            else (collect_new seen full_update
              (List.map Except.ok vs ++ Except.error e :: rest)).map (fun vs => v :: vs)) = _
          rw [hcond]
          rfl
      _ = Except.error e := by rw [hrest]; rfl

/-- C7: a sync always writes `last_update` first; when the metadata fetch then
fails, the sync still returns success, inserts no videos, and the channel row
keeps the freshly written `last_update` — the failure is scoped to skipping
this one channel. -/
theorem C7_mark_attempted_first (chan : Channel) (db : Database) (now : Int) (e : String)
    (source : List (Except String VideoInfo)) (full_update : Bool) :
    Channel.update chan db now (Except.error e) source full_update
        = (chan.set_last_update db now, Except.ok ())
    ∧ (chan.set_last_update db now).videos = db.videos
    ∧ ∀ r ∈ (chan.set_last_update db now).channels, r.id = chan.id →
        r.last_update = some now := by
  refine ⟨rfl, rfl, ?_⟩
  intro r hr hid
  simp only [Channel.set_last_update] at hr
  rcases List.mem_map.mp hr with ⟨r0, _, rfl⟩
  by_cases h : (r0.id == chan.id) = true
  · simp [h]
  · rw [if_neg h] at hid ⊢
    exact absurd hid (by simpa using h)

/-- C10: when the source walk hits an error item after items not yet known (or
with full_update set), the sync returns that error and persists none of the
videos collected before it: insertion only happens after an error-free walk,
so only `last_update` and the channel metadata have changed. -/
theorem C10_listing_error (chan : Channel) (db : Database) (now : Int)
    (m : ChannelMetadata) (pre : List VideoInfo) (e : String)
    (rest : List (Except String VideoInfo)) (full_update : Bool)
    (hpre : ∀ v ∈ pre, (chan.last_n_video_urls db 200).contains v.url = false
        ∨ full_update = true) :
    Channel.update chan db now (Except.ok m)
        (pre.map Except.ok ++ Except.error e :: rest) full_update
      = (chan.update_metadata (chan.set_last_update db now) m, Except.error e)
    ∧ (chan.update_metadata (chan.set_last_update db now) m).videos = db.videos := by
  have hcol := collect_new_error
    (chan.last_n_video_urls (chan.update_metadata (chan.set_last_update db now) m) 200)
    full_update e rest pre hpre
  refine ⟨?_, rfl⟩
  simp only [Channel.update, hcol]

/-- Witness for C10: a one-video prefix not yet known, then a parse error; the
concrete sync surfaces the error and leaves the (empty) video table as it
was. -/
theorem C10_listing_error_witness :
    Channel.update cex_chan c8_db 300 (Except.ok ⟨"chan", "http://thumb", ""⟩)
        ([c2_v1].map Except.ok ++ Except.error "boom" :: []) false
      = (cex_chan.update_metadata (cex_chan.set_last_update c8_db 300)
          ⟨"chan", "http://thumb", ""⟩, Except.error "boom")
    ∧ (cex_chan.update_metadata (cex_chan.set_last_update c8_db 300)
        ⟨"chan", "http://thumb", ""⟩).videos = c8_db.videos :=
  C10_listing_error cex_chan c8_db 300 ⟨"chan", "http://thumb", ""⟩ [c2_v1] "boom" [] false
    (by decide)

theorem collect_new_stop (seen : List String) (u : VideoInfo)
    (rest : List (Except String VideoInfo)) (hu : seen.contains u.url = true) :
    ∀ pre : List VideoInfo,
      (∀ v ∈ pre, seen.contains v.url = false) →
      collect_new seen false (pre.map Except.ok ++ Except.ok u :: rest) = Except.ok pre
      ∧ consumed_count seen false (pre.map Except.ok ++ Except.ok u :: rest)
          = pre.length + 1 := by
  intro pre
  induction pre with
  | nil =>
    intro _
    constructor
    · show (if seen.contains u.url && !false then Except.ok []
        else (collect_new seen false rest).map (fun vs => u :: vs)) = _
      rw [hu]
      rfl
    · show (if seen.contains u.url && !false then 1
        else 1 + consumed_count seen false rest) = _
      rw [hu]
      rfl
  | cons v vs ih =>
    intro h
    have hv : seen.contains v.url = false := h v (List.mem_cons_self v vs)
    obtain ⟨ih1, ih2⟩ := ih (fun x hx => h x (List.mem_cons_of_mem _ hx))
    constructor
    · rw [List.map_cons, List.cons_append]
      show (if seen.contains v.url && !false then Except.ok []
        else (collect_new seen false
          (List.map Except.ok vs ++ Except.ok u :: rest)).map (fun vs => v :: vs)) = _
      rw [hv, ih1]
      rfl
    · rw [List.map_cons, List.cons_append]
      show (if seen.contains v.url && !false then 1
        else 1 + consumed_count seen false (List.map Except.ok vs ++ Except.ok u :: rest)) = _
      rw [hv, ih2]
      simp [List.length_cons]
      omega

theorem insert_all_fresh (chan : Channel) (now : Int) :
    ∀ (vs : List VideoInfo) (db : Database),
      (∀ v ∈ vs, ∀ r ∈ db.videos, (r.url == v.url) = false) →
      (vs.map (fun v => v.url)).Nodup →
      insert_all chan now db vs
        = { db with
            videos := db.videos ++ mk_rows chan now db.next_rowid vs,
            next_rowid := db.next_rowid + vs.length } := by
  intro vs
  induction vs with
  | nil =>
    intro db _ _
    show db = _
    cases db with
    | mk channels videos next => simp [mk_rows]
  | cons v vs ih =>
    intro db hfresh hnodup
    have hguard : (db.videos.any fun r => r.url == v.url) = false := by
      rw [List.any_eq_false]
      intro r hr
      simp [hfresh v (List.mem_cons_self v vs) r hr]
    have hadd : (chan.add_video db now v).1
        = { db with
            videos := db.videos ++ [video_row_of chan now db.next_rowid v],
            next_rowid := db.next_rowid + 1 } := by
      simp only [Channel.add_video, hguard]
      rfl
    have hnodup' : (v.url ∉ vs.map (fun v => v.url)) ∧ (vs.map (fun v => v.url)).Nodup := by
      rw [List.map_cons] at hnodup
      exact List.nodup_cons.mp hnodup
    have hfresh2 : ∀ x ∈ vs,
        ∀ r ∈ (db.videos ++ [video_row_of chan now db.next_rowid v]),
          (r.url == x.url) = false := by
      intro x hx r hr
      rcases List.mem_append.mp hr with hr1 | hr1
      · exact hfresh x (List.mem_cons_of_mem _ hx) r hr1
      · rcases List.mem_singleton.mp hr1 with rfl
        show (v.url == x.url) = false
        have hne : v.url ≠ x.url := by
          intro hEq
          exact hnodup'.1 (hEq ▸ List.mem_map_of_mem _ hx)
        simp [hne]
    show insert_all chan now (chan.add_video db now v).1 vs = _
    rw [hadd, ih _ hfresh2 hnodup'.2]
    cases db with
    | mk channels videos next =>
      simp [mk_rows, List.append_assoc]
      omega

/-- C1 (amended): with the dedup window containing the URL of item u, the
first k-1 items of the newest-first source all new (URLs neither in the
window nor anywhere in the video table, and pairwise distinct) and u the k-th
item, a non-full sync collects exactly those first k-1 items in order,
consumes exactly k source items, succeeds, and appends exactly the rows of
those k-1 items to the video table. -/
theorem C1_early_stop (chan : Channel) (db : Database) (now : Int) (m : ChannelMetadata)
    (pre : List VideoInfo) (u : VideoInfo) (rest : List (Except String VideoInfo))
    (hpre_unseen : ∀ v ∈ pre, (chan.last_n_video_urls db 200).contains v.url = false)
    (hu_seen : (chan.last_n_video_urls db 200).contains u.url = true)
    (hfresh : ∀ v ∈ pre, ∀ r ∈ db.videos, (r.url == v.url) = false)
    (hnodup : (pre.map (fun v => v.url)).Nodup) :
    collect_new (chan.last_n_video_urls db 200) false
        (pre.map Except.ok ++ Except.ok u :: rest) = Except.ok pre
    ∧ consumed_count (chan.last_n_video_urls db 200) false
        (pre.map Except.ok ++ Except.ok u :: rest) = pre.length + 1
    ∧ (Channel.update chan db now (Except.ok m)
        (pre.map Except.ok ++ Except.ok u :: rest) false).2 = Except.ok ()
    ∧ (Channel.update chan db now (Except.ok m)
        (pre.map Except.ok ++ Except.ok u :: rest) false).1.videos
        = db.videos ++ mk_rows chan now db.next_rowid pre := by
  obtain ⟨hcol, hcount⟩ :=
    collect_new_stop (chan.last_n_video_urls db 200) u rest hu_seen pre hpre_unseen
  have hcol2 : collect_new (chan.last_n_video_urls
      (chan.update_metadata (chan.set_last_update db now) m) 200) false
      (pre.map Except.ok ++ Except.ok u :: rest) = Except.ok pre := hcol
  have hins := insert_all_fresh chan now pre
    (chan.update_metadata (chan.set_last_update db now) m) hfresh hnodup
  refine ⟨hcol, hcount, ?_, ?_⟩
  · simp only [Channel.update, hcol2]
  · simp only [Channel.update, hcol2, hins]
    rfl

/-- Witness for C1 at a concrete scenario: the window holds only the URL of u,
the source is one fresh item then u; the sync collects and inserts exactly the
fresh item and consumes two source items. -/
theorem C1_early_stop_witness :
    collect_new (cex_chan.last_n_video_urls c1w_db 200) false
        ([c2_v1].map Except.ok ++ Except.ok c1_vu :: []) = Except.ok [c2_v1]
    ∧ consumed_count (cex_chan.last_n_video_urls c1w_db 200) false
        ([c2_v1].map Except.ok ++ Except.ok c1_vu :: []) = [c2_v1].length + 1
    ∧ (Channel.update cex_chan c1w_db 500 (Except.ok ⟨"chan", "http://thumb", ""⟩)
        ([c2_v1].map Except.ok ++ Except.ok c1_vu :: []) false).2 = Except.ok ()
    ∧ (Channel.update cex_chan c1w_db 500 (Except.ok ⟨"chan", "http://thumb", ""⟩)
        ([c2_v1].map Except.ok ++ Except.ok c1_vu :: []) false).1.videos
        = c1w_db.videos ++ mk_rows cex_chan 500 c1w_db.next_rowid [c2_v1] :=
  C1_early_stop cex_chan c1w_db 500 ⟨"chan", "http://thumb", ""⟩ [c2_v1] c1_vu []
    (by decide) (by decide) (by decide) (by decide)

theorem collect_new_full (seen : List String) :
    ∀ vids : List VideoInfo,
      collect_new seen true (vids.map Except.ok) = Except.ok vids
      ∧ consumed_count seen true (vids.map Except.ok) = vids.length := by
  intro vids
  induction vids with
  | nil => exact ⟨rfl, rfl⟩
  | cons v vs ih =>
    have hc : (seen.contains v.url && !true) = false := by simp
    constructor
    · rw [List.map_cons]
      show (if seen.contains v.url && !true then Except.ok []
        else (collect_new seen true (vs.map Except.ok)).map (fun vs => v :: vs)) = _
      rw [hc, ih.1]
      rfl
    · rw [List.map_cons]
      show (if seen.contains v.url && !true then 1
        else 1 + consumed_count seen true (vs.map Except.ok)) = _
      rw [hc, ih.2]
      simp [List.length_cons]
      omega

theorem add_video_dup (chan : Channel) (db : Database) (now : Int) (v : VideoInfo)
    (hg : (db.videos.any fun r => r.url == v.url) = true) :
    chan.add_video db now v = (db, Except.error "UNIQUE constraint failed: video.url") := by
  simp [Channel.add_video, hg]

theorem add_video_new (chan : Channel) (db : Database) (now : Int) (v : VideoInfo)
    (hg : (db.videos.any fun r => r.url == v.url) = false) :
    (chan.add_video db now v).1
      = { db with
          videos := db.videos ++ [video_row_of chan now db.next_rowid v],
          next_rowid := db.next_rowid + 1 } := by
  simp [Channel.add_video, hg]

theorem insert_all_url_mono (chan : Channel) (now : Int) :
    ∀ (vs : List VideoInfo) (db : Database) (u : String),
      u ∈ db.videos.map (fun r => r.url) →
      u ∈ (insert_all chan now db vs).videos.map (fun r => r.url) := by
  intro vs
  induction vs with
  | nil => intro db u h; exact h
  | cons v vs ih =>
    intro db u h
    show u ∈ (insert_all chan now (chan.add_video db now v).1 vs).videos.map _
    apply ih
    cases hg : (db.videos.any fun r => r.url == v.url) with
    | true =>
      rw [congrArg Prod.fst (add_video_dup chan db now v hg)]
      exact h
    | false =>
      rw [add_video_new chan db now v hg]
      simp only [List.map_append]
      exact List.mem_append_left _ h

theorem insert_all_covers (chan : Channel) (now : Int) :
    ∀ (vs : List VideoInfo) (db : Database),
      ∀ v ∈ vs, v.url ∈ (insert_all chan now db vs).videos.map (fun r => r.url) := by
  intro vs
  induction vs with
  | nil => intro db v h; cases h
  | cons x xs ih =>
    intro db v hv
    rcases List.mem_cons.mp hv with rfl | hv'
    · show v.url ∈ (insert_all chan now (chan.add_video db now v).1 xs).videos.map _
      apply insert_all_url_mono
      cases hg : (db.videos.any fun r => r.url == v.url) with
      | true =>
        rw [congrArg Prod.fst (add_video_dup chan db now v hg)]
        rcases List.any_eq_true.mp hg with ⟨r, hr, hbeq⟩
        have hru : r.url = v.url := by simpa using hbeq
        exact hru ▸ List.mem_map_of_mem _ hr
      | false =>
        rw [add_video_new chan db now v hg]
        simp [video_row_of]
    · show v.url ∈ (insert_all chan now (chan.add_video db now x).1 xs).videos.map _
      exact ih _ v hv'

theorem insert_all_nodup (chan : Channel) (now : Int) :
    ∀ (vs : List VideoInfo) (db : Database),
      (db.videos.map (fun r => r.url)).Nodup →
      ((insert_all chan now db vs).videos.map (fun r => r.url)).Nodup := by
  intro vs
  induction vs with
  | nil => intro db h; exact h
  | cons v vs ih =>
    intro db h
    show ((insert_all chan now (chan.add_video db now v).1 vs).videos.map _).Nodup
    apply ih
    cases hg : (db.videos.any fun r => r.url == v.url) with
    | true =>
      rw [congrArg Prod.fst (add_video_dup chan db now v hg)]
      exact h
    | false =>
      rw [add_video_new chan db now v hg]
      simp only [List.map_append]
      rw [List.nodup_append]
      refine ⟨h, by simp, ?_⟩
      intro a ha hb
      simp [video_row_of] at hb
      rcases List.mem_map.mp ha with ⟨r, hr, hru⟩
      have hfalse := List.any_eq_false.mp hg r hr
      rw [hru, hb] at hfalse
      simp at hfalse

/-- C6: with full_update set and an error-free source, the walk consumes the
whole source (no early stop); every source URL ends up present in the video
table, duplicate inserts being rejected without aborting the remaining
insertions; and per-URL uniqueness of the table is preserved. -/
theorem C6_full_update (chan : Channel) (db : Database) (now : Int) (m : ChannelMetadata)
    (vids : List VideoInfo)
    (hnodup : (db.videos.map (fun r => r.url)).Nodup) :
    consumed_count (chan.last_n_video_urls db 200) true (vids.map Except.ok) = vids.length
    ∧ (Channel.update chan db now (Except.ok m) (vids.map Except.ok) true).2 = Except.ok ()
    ∧ ((Channel.update chan db now (Except.ok m) (vids.map Except.ok) true).1.videos.map
        (fun r => r.url)).Nodup
    ∧ ∀ v ∈ vids, v.url ∈ ((Channel.update chan db now (Except.ok m)
        (vids.map Except.ok) true).1.videos.map (fun r => r.url)) := by
  have hcol : collect_new (chan.last_n_video_urls
      (chan.update_metadata (chan.set_last_update db now) m) 200) true
      (vids.map Except.ok) = Except.ok vids :=
    (collect_new_full _ vids).1
  have hupd : Channel.update chan db now (Except.ok m) (vids.map Except.ok) true
      = (insert_all chan now (chan.update_metadata (chan.set_last_update db now) m) vids,
         Except.ok ()) := by
    simp only [Channel.update, hcol]
  refine ⟨(collect_new_full _ vids).2, ?_, ?_, ?_⟩
  · rw [hupd]
  · rw [hupd]
    exact insert_all_nodup chan now vids _ hnodup
  · rw [hupd]
    intro v hv
    exact insert_all_covers chan now vids _ v hv

/-- Witness for C6 at a concrete scenario: the table holds u; the full-update
source is u (a duplicate, rejected) then a fresh video; both URLs are present
afterwards, uniqueness holds, and both source items were consumed. -/
theorem C6_full_update_witness :
    consumed_count (cex_chan.last_n_video_urls c6w_db 200) true
        ([c1_vu, c2_v1].map Except.ok) = [c1_vu, c2_v1].length
    ∧ (Channel.update cex_chan c6w_db 500 (Except.ok ⟨"chan", "http://thumb", ""⟩)
        ([c1_vu, c2_v1].map Except.ok) true).2 = Except.ok ()
    ∧ ((Channel.update cex_chan c6w_db 500 (Except.ok ⟨"chan", "http://thumb", ""⟩)
        ([c1_vu, c2_v1].map Except.ok) true).1.videos.map (fun r => r.url)).Nodup
    ∧ ∀ v ∈ [c1_vu, c2_v1], v.url ∈ ((Channel.update cex_chan c6w_db 500
        (Except.ok ⟨"chan", "http://thumb", ""⟩)
        ([c1_vu, c2_v1].map Except.ok) true).1.videos.map (fun r => r.url)) :=
  C6_full_update cex_chan c6w_db 500 ⟨"chan", "http://thumb", ""⟩ [c1_vu, c2_v1]
    (by decide)

theorem find?_status_map (l : List VideoRow) (vid : Int) (st : VideoStatus) (j : Int) :
    ((l.map fun r => if r.id == vid then { r with status := st } else r).find?
        (fun r => r.id == j))
      = (l.find? (fun r => r.id == j)).map
          (fun r => if r.id == vid then { r with status := st } else r) := by
  induction l with
  | nil => rfl
  | cons r rs ih =>
    rw [List.map_cons, List.find?_cons, List.find?_cons]
    have hid : ((if r.id == vid then { r with status := st } else r) : VideoRow).id
        = r.id := by
      by_cases h : (r.id == vid) = true
      · rw [if_pos h]
      · rw [if_neg h]
    rw [hid]
    by_cases h : (r.id == j) = true
    · rw [h]
      rfl
    · have h' : (r.id == j) = false := by
        cases hx : (r.id == j) with
        | false => rfl
        | true => exact absurd hx h
      rw [h']
      exact ih

theorem video_status_set (db : Database) (val : DBVideoInfo) (st : VideoStatus) (j : Int) :
    video_status (val.set_status db st) j
      = if (j == val.id) = true
          then (video_status db j).map (fun _ => st)
          else video_status db j := by
  unfold video_status DBVideoInfo.set_status
  rw [find?_status_map]
  cases hf : db.videos.find? (fun r => r.id == j) with
  | none =>
    by_cases h : (j == val.id) = true
    · rw [if_pos h]
      rfl
    · rw [if_neg h]
      rfl
  | some r =>
    have hrj : r.id = j := by simpa using List.find?_some hf
    by_cases h : (j == val.id) = true
    · rw [if_pos h]
      have hj : j = val.id := by simpa using h
      have hrv : (r.id == val.id) = true := by rw [hrj, hj]; simp
      show some ((if r.id == val.id then { r with status := st } else r) : VideoRow).status
        = _
      rw [if_pos hrv]
      rfl
    · rw [if_neg h]
      have hj : j ≠ val.id := fun hEq => h (by simp [hEq])
      have hrv : ¬ ((r.id == val.id) = true) := by
        rw [hrj]
        simp [hj]
      show some ((if r.id == val.id then { r with status := st } else r) : VideoRow).status
        = some r.status
      rw [if_neg hrv]

/-- C4: a download run re-reads the video from storage first; when the
re-read status is not Queued it is a no-op leaving the whole database
unchanged; when it is Queued the run succeeds, the status of that one video
ends as Grabbed exactly when the download collaborator succeeds and as
GrabError when it fails, and no other video row status changes. -/
theorem C4_download_status (db : Database) (val0 : DBVideoInfo)
    (download : VideoInfo → Except String Unit) (val : DBVideoInfo)
    (hval : DBVideoInfo.get_by_sqlid db val0.id = Except.ok val) :
    (val.status ≠ VideoStatus.Queued →
      worker_download db val0 download = (db, Except.ok ()))
    ∧ (val.status = VideoStatus.Queued →
        (worker_download db val0 download).2 = Except.ok ()
        ∧ video_status (worker_download db val0 download).1 val0.id
            = some (match download val.info with
                | Except.ok _ => VideoStatus.Grabbed
                | Except.error _ => VideoStatus.GrabError)
        ∧ ∀ j, ¬ ((j == val0.id) = true) →
            video_status (worker_download db val0 download).1 j = video_status db j) := by
  have hrow : ∃ row, db.videos.find? (fun r => r.id == val0.id) = some row
      ∧ val.id = row.id ∧ val.status = row.status := by
    unfold DBVideoInfo.get_by_sqlid at hval
    cases hfind : db.videos.find? (fun r => r.id == val0.id) with
    | none =>
      rw [hfind] at hval
      exact absurd hval (by simp)
    | some row =>
      rw [hfind] at hval
      have heq := hval
      simp only [Except.ok.injEq] at heq
      exact ⟨row, rfl, by rw [← heq], by rw [← heq]⟩
  obtain ⟨row, hfind, hvid, hvstat⟩ := hrow
  have hid0 : row.id = val0.id := by simpa using List.find?_some hfind
  have hvid0 : val.id = val0.id := by rw [hvid, hid0]
  have hstat : video_status db val0.id = some val.status := by
    unfold video_status
    rw [hfind, hvstat]
    rfl
  have hj : (val0.id == val.id) = true := by rw [hvid0]; simp
  constructor
  · intro hne
    simp only [worker_download, hval]
    rw [if_pos hne]
  · intro hq
    have hne : ¬ (val.status ≠ VideoStatus.Queued) := fun hx => hx hq
    simp only [worker_download, hval]
    rw [if_neg hne]
    cases hdl : download val.info with
    | ok u =>
      refine ⟨rfl, ?_, ?_⟩
      · show video_status (val.set_status (val.set_status db VideoStatus.Downloading)
            VideoStatus.Grabbed) val0.id = some VideoStatus.Grabbed
        rw [video_status_set, if_pos hj, video_status_set, if_pos hj, hstat]
        rfl
      · intro j hjne
        have hjne' : ¬ ((j == val.id) = true) := by rw [hvid0]; exact hjne
        show video_status (val.set_status (val.set_status db VideoStatus.Downloading)
            VideoStatus.Grabbed) j = video_status db j
        rw [video_status_set, if_neg hjne', video_status_set, if_neg hjne']
    | error e =>
      refine ⟨rfl, ?_, ?_⟩
      · show video_status (val.set_status (val.set_status db VideoStatus.Downloading)
            VideoStatus.GrabError) val0.id = some VideoStatus.GrabError
        rw [video_status_set, if_pos hj, video_status_set, if_pos hj, hstat]
        rfl
      · intro j hjne
        have hjne' : ¬ ((j == val.id) = true) := by rw [hvid0]; exact hjne
        show video_status (val.set_status (val.set_status db VideoStatus.Downloading)
            VideoStatus.GrabError) j = video_status db j
        rw [video_status_set, if_neg hjne', video_status_set, if_neg hjne']

/-- Witness for C4 at a concrete queued video and an always-succeeding
download collaborator: the run succeeds, the video ends Grabbed, and every
other row keeps its status. -/
theorem C4_download_status_witness :
    (c4w_val.status ≠ VideoStatus.Queued →
      worker_download c4w_db c4w_val (fun _ => Except.ok ()) = (c4w_db, Except.ok ()))
    ∧ (c4w_val.status = VideoStatus.Queued →
        (worker_download c4w_db c4w_val (fun _ => Except.ok ())).2 = Except.ok ()
        ∧ video_status (worker_download c4w_db c4w_val (fun _ => Except.ok ())).1 c4w_val.id
            = some VideoStatus.Grabbed
        ∧ ∀ j, ¬ ((j == c4w_val.id) = true) →
            video_status (worker_download c4w_db c4w_val (fun _ => Except.ok ())).1 j
              = video_status c4w_db j) :=
  C4_download_status c4w_db c4w_val (fun _ => Except.ok ()) c4w_val (by rfl)

theorem filter_replicate_shutdown (n : Nat) :
    (List.replicate n WorkItem.Shutdown).filter (fun i => !i.isShutdown) = [] := by
  induction n with
  | zero => rfl
  | succ k ih => simp [List.replicate_succ, ih, WorkItem.isShutdown]

theorem countP_replicate_shutdown (n : Nat) :
    (List.replicate n WorkItem.Shutdown).countP (fun i => i.isShutdown) = n := by
  induction n with
  | zero => rfl
  | succ k ih =>
    rw [List.replicate_succ, List.countP_cons, ih]
    rfl

theorem card_exited_update {n : Nat} (f : Fin n → Bool) (w : Fin n) (hw : f w = false) :
    (Finset.univ.filter (fun x => Function.update f w true x = true)).card
      = (Finset.univ.filter (fun x => f x = true)).card + 1 := by
  have hset : (Finset.univ.filter (fun x => Function.update f w true x = true))
      = insert w (Finset.univ.filter (fun x => f x = true)) := by
    ext x
    by_cases hx : x = w
    · subst hx
      simp [Function.update_same]
    · simp [Function.update_noteq hx, hx]
  rw [hset, Finset.card_insert_of_not_mem (by simp [hw])]

theorem pool_inv_init (n : Nat) (items : List WorkItem)
    (hitems : ∀ i ∈ items, i.isShutdown = false) :
    PoolInv n items (PoolState.init n items) := by
  refine ⟨⟨[], rfl⟩, ?_, ?_⟩
  · show [] ++ ((items ++ List.replicate n WorkItem.Shutdown).filter
      (fun i => !i.isShutdown)) = items
    rw [List.nil_append, List.filter_append, filter_replicate_shutdown, List.append_nil]
    rw [List.filter_eq_self.mpr]
    intro a ha
    simp [hitems a ha]
  · show (items ++ List.replicate n WorkItem.Shutdown).countP (fun i => i.isShutdown)
        + (Finset.univ.filter (fun w => (fun (_ : Fin n) => false) w = true)).card = n
    rw [List.countP_append, countP_replicate_shutdown]
    have h1 : items.countP (fun i => i.isShutdown) = 0 := by
      rw [List.countP_eq_zero]
      intro a ha
      simp [hitems a ha]
    have h2 : (Finset.univ.filter (fun w => (fun (_ : Fin n) => false) w = true)).card
        = 0 := by
      simp
    rw [h1, h2]
    omega

theorem pool_inv_step (n : Nat) (items : List WorkItem) (s s2 : PoolState n)
    (hinv : PoolInv n items s) (hstep : PoolStep n s s2) :
    PoolInv n items s2 := by
  obtain ⟨⟨c, hc⟩, hexec, hcount⟩ := hinv
  cases hstep with
  | run_item w item q hw hq hitem =>
    have hfil : s.queue.filter (fun i => !i.isShutdown)
        = item :: q.filter (fun i => !i.isShutdown) := by
      rw [hq, List.filter_cons]
      simp [hitem]
    have hcnt : s.queue.countP (fun i => i.isShutdown)
        = q.countP (fun i => i.isShutdown) := by
      rw [hq, List.countP_cons]
      simp [hitem]
    refine ⟨⟨c ++ [item], ?_⟩, ?_, ?_⟩
    · rw [List.append_assoc, hc, hq]
      rfl
    · show (s.executed ++ [(item, w)]).map Prod.fst
          ++ q.filter (fun i => !i.isShutdown) = items
      rw [hfil] at hexec
      rw [List.map_append, List.append_assoc]
      exact hexec
    · show q.countP (fun i => i.isShutdown)
          + (Finset.univ.filter (fun x => s.exited x = true)).card = n
      rw [hcnt] at hcount
      exact hcount
  | run_shutdown w q hw hq =>
    have hfil : s.queue.filter (fun i => !i.isShutdown)
        = q.filter (fun i => !i.isShutdown) := by
      rw [hq, List.filter_cons]
      simp [WorkItem.isShutdown]
    have hcnt : s.queue.countP (fun i => i.isShutdown)
        = q.countP (fun i => i.isShutdown) + 1 := by
      rw [hq, List.countP_cons]
      simp [WorkItem.isShutdown]
    refine ⟨⟨c ++ [WorkItem.Shutdown], ?_⟩, ?_, ?_⟩
    · rw [List.append_assoc, hc, hq]
      rfl
    · rw [hfil] at hexec
      exact hexec
    · show q.countP (fun i => i.isShutdown)
          + (Finset.univ.filter
              (fun x => Function.update s.exited w true x = true)).card = n
      rw [hcnt] at hcount
      rw [card_exited_update s.exited w hw]
      omega

theorem pool_inv_steps (n : Nat) (items : List WorkItem) (s : PoolState n)
    (hitems : ∀ i ∈ items, i.isShutdown = false)
    (hsteps : Relation.ReflTransGen (PoolStep n) (PoolState.init n items) s) :
    PoolInv n items s := by
  induction hsteps with
  | refl => exact pool_inv_init n items hitems
  | tail hab hbc ih => exact pool_inv_step n items _ _ ih hbc

/-- C3: with at least one worker, once k non-sentinel items are enqueued and
`stop()` has pushed one Shutdown per worker, any interleaved execution in
which every worker has exited — the state in which `stop()` returns from
`pool.join()` — has executed exactly the k enqueued items, each exactly once
by exactly one worker, in FIFO order. -/
theorem C3_drain_guarantee (n : Nat) (items : List WorkItem) (s : PoolState n)
    (hn : 0 < n)
    (hitems : ∀ i ∈ items, i.isShutdown = false)
    (hsteps : Relation.ReflTransGen (PoolStep n) (PoolState.init n items) s)
    (hdone : ∀ w, s.exited w = true) :
    s.executed.map Prod.fst = items := by
  obtain ⟨⟨c, hc⟩, hexec, hcount⟩ := pool_inv_steps n items s hitems hsteps
  have hcard : (Finset.univ.filter (fun w => s.exited w = true)).card = n := by
    have hall : (Finset.univ.filter (fun w => s.exited w = true)) = Finset.univ := by
      apply Finset.filter_true_of_mem
      intro x _
      exact hdone x
    rw [hall, Finset.card_univ, Fintype.card_fin]
  have hzero : s.queue.countP (fun i => i.isShutdown) = 0 := by omega
  have hq : s.queue = [] := by
    rcases List.append_eq_append_iff.mp hc with ⟨a2, hca, hrep⟩ | ⟨c2, hic, hqr⟩
    · cases hqe : s.queue with
      | nil => rfl
      | cons x xs =>
        have hx : x ∈ List.replicate n WorkItem.Shutdown := by
          rw [hrep]
          exact List.mem_append_right _ (by rw [hqe]; exact List.mem_cons_self x xs)
        have hxs : x = WorkItem.Shutdown := List.eq_of_mem_replicate hx
        have hpos : 0 < s.queue.countP (fun i => i.isShutdown) := by
          rw [hqe, List.countP_cons]
          simp [hxs, WorkItem.isShutdown]
        omega
    · have hx : WorkItem.Shutdown ∈ s.queue := by
        rw [hqr]
        exact List.mem_append_right _ (List.mem_replicate.mpr ⟨by omega, rfl⟩)
      have hpos : 0 < s.queue.countP (fun i => i.isShutdown) :=
        List.countP_pos_iff.mpr ⟨_, hx, rfl⟩
      omega
  rw [hq] at hexec
  simpa using hexec

/-- Witness for C3: one worker, one enqueued thumbnail item followed by the
one Shutdown sentinel; the concrete two-step trace (run the item, then exit
on Shutdown) reaches the all-exited state having executed exactly that item. -/
theorem C3_drain_guarantee_witness :
    ({ queue := [],
       exited := Function.update
         (PoolState.init 1 [WorkItem.ThumbnailCache "u"]).exited (0 : Fin 1) true,
       executed := (PoolState.init 1 [WorkItem.ThumbnailCache "u"]).executed
         ++ [(WorkItem.ThumbnailCache "u", (0 : Fin 1))] } : PoolState 1).executed.map
      Prod.fst = [WorkItem.ThumbnailCache "u"] := by
  refine C3_drain_guarantee 1 [WorkItem.ThumbnailCache "u"] _ (by decide) ?_ ?_ ?_
  · intro i hi
    rcases List.mem_singleton.mp hi with rfl
    rfl
  · refine Relation.ReflTransGen.head
      (PoolStep.run_item (PoolState.init 1 [WorkItem.ThumbnailCache "u"]) (0 : Fin 1)
        (WorkItem.ThumbnailCache "u") [WorkItem.Shutdown] rfl rfl rfl)
      (Relation.ReflTransGen.head
        (PoolStep.run_shutdown _ (0 : Fin 1) [] rfl rfl)
        Relation.ReflTransGen.refl)
  · intro w
    have hw0 : w = 0 := Subsingleton.elim w 0
    rw [hw0]
    simp [Function.update_same]
